import Mathlib

/-!
Verification of the domiciliary-care scheduling engine (care-app-backend).

Shallow embedding conventions:
* Calendar dates are integers counting UTC days (the code normalizes every
  date to 00:00:00 UTC of its calendar day before comparing, so a day number
  is exactly the information it keeps).
* Clock times are minutes since midnight. The JavaScript code compares HH:MM
  strings lexicographically; on schema-validated, zero-padded HH:MM strings
  that order coincides with the minute order, which is what the model uses.
  The one place the code manufactures a clock-time string itself (the
  assignment engine's end-time computation) is embedded separately at the
  string level, because its output is not always zero-padded.
* Distances are rationals and the geometric distance function (haversine on
  floats in the source) is a parameter of the environment; none of the
  verified properties depend on the geometric formula itself.
* Database queries become pure functions over lists carried in an
  environment record.
-/

namespace CareApp

/-- Days of the week as the `en-GB` locale names them in the source. -/
inductive Weekday
  | monday | tuesday | wednesday | thursday | friday | saturday | sunday
deriving DecidableEq, Repr

/-- Weekday of an epoch-day number (1970-01-01, day 0, was a Thursday);
embeds `date.toLocaleDateString("en-GB", { weekday: "long" })`. -/
def dayOfWeekOf (d : Int) : Weekday :=
  match (d % 7).toNat with
  | 0 => .thursday
  | 1 => .friday
  | 2 => .saturday
  | 3 => .sunday
  | 4 => .monday
  | 5 => .tuesday
  | _ => .wednesday

/-- The closed skill vocabulary of the CareGiver / VisitTemplate schemas. -/
inductive Skill
  | personalCare | medicationManagement | dementiaCare | mobilityAssistance
  | mealPreparation | companionship | householdTasks | specializedMedical
deriving DecidableEq, Repr

inductive Gender
  | male | female | nonBinary | preferNotToSay
deriving DecidableEq, Repr

/-- `genderPreference` enum of the CareReceiver schema. -/
inductive GenderPref
  | male | female | noPreference
deriving DecidableEq, Repr

/-- `recurrencePattern` enum of the visit template schema. -/
inductive RecPattern
  | weekly | biweekly | monthly | custom
deriving DecidableEq, Repr

/-- Appointment `status` enum. -/
inductive AptStatus
  | scheduled | inProgress | completed | cancelled | missed
  | needsReview | needsReassignment
deriving DecidableEq, Repr

/-- A working slot of a weekly schedule (minutes since midnight). -/
structure TimeSlot where
  startTime : Nat
  endTime : Nat
deriving DecidableEq, Repr

/-- One weekday's entry of a weekly schedule. -/
structure DaySchedule where
  dayOfWeek : Weekday
  slots : List TimeSlot
deriving DecidableEq, Repr

/-- A holiday block (`timeOff` entry), at UTC-day resolution. -/
structure TimeOffEntry where
  startDate : Int
  endDate : Int
  reason : Option String
deriving DecidableEq, Repr

/-- Embedded visit template (`dailyVisits` entry of the CareReceiver schema).
`daysOfWeek` and `recurrencePattern` are `Option` because the engine applies
`||`-defaults to them. -/
structure Visit where
  visitNumber : Nat
  preferredTime : Nat
  duration : Nat
  daysOfWeek : Option (List Weekday)
  recurrencePattern : Option RecPattern
  recurrenceInterval : Nat
  recurrenceStartDate : Option Int
  requirements : List Skill
  doubleHanded : Bool
  priority : Nat
deriving DecidableEq, Repr

/-- All seven weekday names, the engine's default for `daysOfWeek`. -/
def allDays : List Weekday :=
  [.monday, .tuesday, .wednesday, .thursday, .friday, .saturday, .sunday]

/-- `shouldVisitOccur(visit, checkDate, careReceiverCreatedAt)` of
schedulingService.js: weekday filter, then recurrence. `Math.floor` of the
millisecond difference over seven days is `Int.fdiv` of the day difference
by 7, and `visit.recurrenceInterval || 1` maps 0 (and undefined) to 1. -/
def shouldVisitOccur (visit : Visit) (checkDate : Int)
    (careReceiverCreatedAt : Int) : Bool :=
  let dayOfWeek := dayOfWeekOf checkDate
  let daysOfWeek := visit.daysOfWeek.getD allDays
  if !(daysOfWeek.contains dayOfWeek) then
    false
  else
    match visit.recurrencePattern.getD .weekly with
    | .weekly => true
    | _ =>
      -- biweekly, monthly and custom all take this branch in the source
      let startDate := visit.recurrenceStartDate.getD careReceiverCreatedAt
      let recurrenceInterval :=
        if visit.recurrenceInterval = 0 then 1 else visit.recurrenceInterval
      let weeksDiff := Int.fdiv (checkDate - startDate) 7
      decide (0 ≤ weeksDiff) && weeksDiff % (recurrenceInterval : Int) == 0

/-- The spec's expansion rule, written from its words for comparison with
`shouldVisitOccur`: anchor is `recurrence_start_date` if set else the
receiver's `created_at`; `weeks = floor((day d - day anchor) / 7)`; a
non-weekly template occurs iff `weeks ≥ 0 ∧ weeks mod interval = 0`. -/
def recurrenceMatches (visit : Visit) (d createdAt : Int) : Bool :=
  match visit.recurrencePattern.getD .weekly with
  | .weekly => true
  | _ =>
    let anchor := visit.recurrenceStartDate.getD createdAt
    let weeks := Int.fdiv (d - anchor) 7
    decide (0 ≤ weeks) && weeks % (visit.recurrenceInterval : Int) == 0

/-- The spec's full per-day predicate: weekday in the (defaulted) day set and
the recurrence rule matches. -/
def specExpandsOn (visit : Visit) (d createdAt : Int) : Bool :=
  (visit.daysOfWeek.getD allDays).contains (dayOfWeekOf d) &&
    recurrenceMatches visit d createdAt

/-! ## Entities -/

/-- CareGiver document (the fields the scheduling core reads). `coordinates`
is an abstract location id; the geometric distance between two locations is a
function carried by the environment. -/
structure CareGiver where
  id : Nat
  isActive : Bool
  gender : Gender
  skills : List Skill
  singleHandedOnly : Bool
  coordinates : Nat
  availability : List DaySchedule
  timeOff : List TimeOffEntry
deriving DecidableEq, Repr

/-- CareReceiver document (the fields the scheduling core reads). -/
structure CareReceiver where
  id : Nat
  isActive : Bool
  genderPreference : GenderPref
  preferredCareGiver : Option Nat
  coordinates : Nat
  dailyVisits : List Visit
  createdAt : Int
deriving DecidableEq, Repr

/-- Availability document: one version of a care giver's weekly schedule and
holiday list. `effectiveTo = none` means current/open. -/
structure AvailabilityVersion where
  id : Nat
  careGiver : Nat
  effectiveFrom : Int
  effectiveTo : Option Int
  schedule : List DaySchedule
  timeOff : List TimeOffEntry
  isActive : Bool
  version : Nat
deriving DecidableEq, Repr

/-- Appointment document (the fields the scheduling core reads). -/
structure Appointment where
  id : Nat
  careReceiver : Nat
  careGiver : Nat
  secondaryCareGiver : Option Nat
  date : Int
  startTime : Nat
  endTime : Nat
  duration : Nat
  visitNumber : Nat
  doubleHanded : Bool
  status : AptStatus
deriving DecidableEq, Repr

/-- The scheduling settings after the service's `||`-defaulting
(`travelTimeBufferMinutes || 15`, `maxAppointmentsPerDay || 8`,
`maxDistanceKm || 20`). -/
structure Settings where
  maxDistanceKm : ℚ
  travelTimeBufferMinutes : Nat
  maxAppointmentsPerDay : Nat
deriving DecidableEq, Repr

/-- The database and external services the engine consults. `dist` stands for
`calculateDistance` (haversine, km) and `travel` for `calculateTravelTime`
(integer minutes); both are real-valued float computations in the source and
are abstracted as parameters here — no verified property depends on the
geometric formulas. -/
structure Env where
  careGivers : List CareGiver
  careReceivers : List CareReceiver
  availabilities : List AvailabilityVersion
  settings : Settings
  dist : Nat → Nat → ℚ
  travel : Nat → Nat → Nat

/-! ## Availability store -/

/-- The filter of `Availability.getCurrentForCareGiver`: effective at `date`,
open-ended or not yet expired, and active. -/
def availMatchesCurrent (careGiverId : Nat) (date : Int)
    (a : AvailabilityVersion) : Bool :=
  a.careGiver == careGiverId && decide (a.effectiveFrom ≤ date) &&
    (match a.effectiveTo with
     | none => true
     | some t => decide (date ≤ t)) &&
    a.isActive

/-- Keep whichever of the two versions has the greater `effectiveFrom`
(first wins ties), the accumulator of the `sort({effectiveFrom: -1})`
maximum. -/
def newerOf (best : Option AvailabilityVersion) (a : AvailabilityVersion) :
    Option AvailabilityVersion :=
  match best with
  | none => some a
  | some b => if b.effectiveFrom < a.effectiveFrom then some a else some b

/-- `Availability.getCurrentForCareGiver`: `findOne` with the filter above,
sorted by `effectiveFrom` descending — the matching version with the greatest
`effectiveFrom` (first in list order among equals). -/
def getCurrentForCareGiver (avails : List AvailabilityVersion)
    (careGiverId : Nat) (date : Int) : Option AvailabilityVersion :=
  (avails.filter (availMatchesCurrent careGiverId date)).foldl newerOf none

/-! ## Feasibility oracle (`isCareGiverAvailable`) -/

/-- Why the oracle said no (or, for `availableMsg`, the success message). The
source returns display strings; the constructors carry the same payload. -/
inductive UnavailReason
  | careGiverNotFound
  | careGiverInactive
  | onTimeOff (reason : Option String)
  | notWorkingOn (w : Weekday)
  | outsideWorkingHours
  | noAvailabilitySchedule
  | tooManyAppointments (count maxPerDay : Nat)
  | timeConflict
  | insufficientTravelFromPrevious (required actual : Nat)
  | insufficientTravelToNext (required actual : Nat)
  | availableMsg
deriving DecidableEq, Repr

/-- Result record of the oracle (`{ available, reason }`; the `conflicts`
array adds nothing the reason does not carry here). -/
structure AvailCheck where
  available : Bool
  reason : UnavailReason
deriving DecidableEq, Repr

/-- The source's time-off scan: first inline interval containing `date`,
comparing at UTC-day resolution (the end day is extended to 23:59:59.999,
hence inclusive). -/
def firstTimeOffHit (entries : List TimeOffEntry) (date : Int) :
    Option TimeOffEntry :=
  entries.find? fun t => decide (t.startDate ≤ date) && decide (date ≤ t.endDate)

/-- The slot-containment test both schedule branches use:
`startTime >= slot.startTime && endTime <= slot.endTime` for some slot. -/
def isInWorkingHours (slots : List TimeSlot) (startTime endTime : Nat) : Bool :=
  slots.any fun slot =>
    decide (slot.startTime ≤ startTime) && decide (endTime ≤ slot.endTime)

/-- The day-schedule check shared by the versioned and the inline branch:
missing day or empty slots → not working; no containing slot → outside
working hours; else pass. -/
def schedulePatternCheck (schedule : List DaySchedule) (dayOfWeek : Weekday)
    (startTime endTime : Nat) : Option UnavailReason :=
  match schedule.find? (fun s => s.dayOfWeek == dayOfWeek) with
  | none => some (.notWorkingOn dayOfWeek)
  | some daySchedule =>
    if daySchedule.slots.isEmpty then some (.notWorkingOn dayOfWeek)
    else if !(isInWorkingHours daySchedule.slots startTime endTime) then
      some .outsideWorkingHours
    else none

/-- The inline time-overlap disjunction of the conflict loop. -/
def overlapsApt (apt : Appointment) (startTime endTime : Nat) : Bool :=
  (decide (apt.startTime ≤ startTime) && decide (startTime < apt.endTime)) ||
  (decide (apt.startTime < endTime) && decide (endTime ≤ apt.endTime)) ||
  (decide (startTime ≤ apt.startTime) && decide (apt.endTime ≤ endTime))

/-- The `$or` of the appointment query: primary or secondary role. -/
def involvesCareGiver (careGiverId : Nat) (apt : Appointment) : Bool :=
  apt.careGiver == careGiverId || apt.secondaryCareGiver == some careGiverId

/-- Statuses the conflict query selects (`scheduled`, `in_progress`). -/
def isActiveStatus (s : AptStatus) : Bool :=
  s == .scheduled || s == .inProgress

/-- Stable insertion (after every element the relation accepts first). -/
def insertLe {α : Type} (le : α → α → Bool) (a : α) : List α → List α
  | [] => [a]
  | b :: rest => if le b a then b :: insertLe le a rest else a :: b :: rest

/-- Stable insertion sort, the model of the query-level `sort`. -/
def sortLe {α : Type} (le : α → α → Bool) (l : List α) : List α :=
  l.foldr (insertLe le) []

/-- The conflict query of the oracle: the care giver's appointments of the
day (either role), active status, minus the excluded id, sorted by start. -/
def existingAppointmentsFor (appointments : List Appointment)
    (careGiverId : Nat) (date : Int) (excludeAppointmentId : Option Nat) :
    List Appointment :=
  sortLe (fun a b => decide (a.startTime ≤ b.startTime))
    (appointments.filter fun apt =>
      involvesCareGiver careGiverId apt && apt.date == date &&
        isActiveStatus apt.status &&
        (match excludeAppointmentId with
         | none => true
         | some ex => apt.id != ex))

/-- The travel check before: against the last prior appointment, skipped when
that appointment's receiver (hence its geolocation) cannot be resolved. -/
def travelCheckBefore (env : Env) (existing : List Appointment)
    (startTime : Nat) (careReceiverLocation : Nat) : Option UnavailReason :=
  match (existing.filter fun apt => decide (apt.endTime ≤ startTime)).getLast? with
  | none => none
  | some lastApt =>
    match env.careReceivers.find? (fun r => r.id == lastApt.careReceiver) with
    | none => none
    | some r =>
      let travelTime := env.travel r.coordinates careReceiverLocation
      let gapMinutes := startTime - lastApt.endTime
      let requiredGap := travelTime + env.settings.travelTimeBufferMinutes
      if gapMinutes < requiredGap then
        some (.insufficientTravelFromPrevious requiredGap gapMinutes)
      else none

/-- The travel check after: against the first following appointment. -/
def travelCheckAfter (env : Env) (existing : List Appointment)
    (endTime : Nat) (careReceiverLocation : Nat) : Option UnavailReason :=
  match (existing.filter fun apt => decide (endTime ≤ apt.startTime)).head? with
  | none => none
  | some nextApt =>
    match env.careReceivers.find? (fun r => r.id == nextApt.careReceiver) with
    | none => none
    | some r =>
      let travelTime := env.travel careReceiverLocation r.coordinates
      let gapMinutes := nextApt.startTime - endTime
      let requiredGap := travelTime + env.settings.travelTimeBufferMinutes
      if gapMinutes < requiredGap then
        some (.insufficientTravelToNext requiredGap gapMinutes)
      else none

/-- The appointment-level checks of the oracle, in source order: daily cap,
intra-day overlap, travel gap before and after. -/
def appointmentStageCheck (env : Env) (appointments : List Appointment)
    (careGiverId : Nat) (date : Int) (startTime endTime : Nat)
    (careReceiverLocation : Nat) (excludeAppointmentId : Option Nat) :
    AvailCheck :=
  let existing :=
    existingAppointmentsFor appointments careGiverId date excludeAppointmentId
  if existing.length ≥ env.settings.maxAppointmentsPerDay then
    ⟨false, .tooManyAppointments existing.length
      env.settings.maxAppointmentsPerDay⟩
  else
    match existing.find? (fun apt => overlapsApt apt startTime endTime) with
    | some _ => ⟨false, .timeConflict⟩
    | none =>
      match travelCheckBefore env existing startTime careReceiverLocation with
      | some r => ⟨false, r⟩
      | none =>
        match travelCheckAfter env existing endTime careReceiverLocation with
        | some r => ⟨false, r⟩
        | none => ⟨true, .availableMsg⟩

/-- `isCareGiverAvailable` of schedulingService.js, check for check in source
order: existence and active flag; inline time-off; weekly pattern (current
availability version, falling back to the inline pattern when no version or
an empty versioned schedule, and to a no-schedule failure when neither
exists); then the appointment stage (daily cap, intra-day overlap, travel
gaps). Note the versioned `timeOff` list is nowhere consulted. -/
def isCareGiverAvailable (env : Env) (appointments : List Appointment)
    (careGiverId : Nat) (date : Int) (startTime endTime : Nat)
    (careReceiverLocation : Nat) (excludeAppointmentId : Option Nat) :
    AvailCheck :=
  match env.careGivers.find? (fun cg => cg.id == careGiverId) with
  | none => ⟨false, .careGiverNotFound⟩
  | some careGiver =>
    if !careGiver.isActive then ⟨false, .careGiverInactive⟩
    else
      match firstTimeOffHit careGiver.timeOff date with
      | some t => ⟨false, .onTimeOff t.reason⟩
      | none =>
        let dayOfWeek := dayOfWeekOf date
        let inlineBranch : Option UnavailReason :=
          if !careGiver.availability.isEmpty then
            schedulePatternCheck careGiver.availability dayOfWeek startTime endTime
          else some .noAvailabilitySchedule
        let patternResult : Option UnavailReason :=
          match getCurrentForCareGiver env.availabilities careGiverId date with
          | none => inlineBranch
          | some av =>
            if av.schedule.isEmpty then inlineBranch
            else schedulePatternCheck av.schedule dayOfWeek startTime endTime
        match patternResult with
        | some r => ⟨false, r⟩
        | none =>
          appointmentStageCheck env appointments careGiverId date startTime
            endTime careReceiverLocation excludeAppointmentId

/-! ## Clock-time strings

The engine computes the appointment end time as a string:
`` `${hours + Math.floor(endMinutes / 60)}:${(endMinutes % 60).toString().padStart(2, "0")}` ``
and the Appointment schema validates both clock-time strings against
`/^([01]\d|2[0-3]):([0-5]\d)$/` on save. -/

def isDigitChar (c : Char) : Bool := decide ('0' ≤ c) && decide (c ≤ '9')

/-- The HH:MM regex of the Appointment / Availability / CareGiver schemas. -/
def matchesHHMM (s : String) : Bool :=
  match s.data with
  | [h1, h2, c, m1, m2] =>
    (((h1 == '0' || h1 == '1') && isDigitChar h2) ||
      (h1 == '2' && (decide ('0' ≤ h2) && decide (h2 ≤ '3')))) &&
    c == ':' &&
    (decide ('0' ≤ m1) && decide (m1 ≤ '5')) && isDigitChar m2
  | _ => false

/-- `String.prototype.padStart(2, "0")`. -/
def padStart2 (s : String) : String := if s.length < 2 then "0" ++ s else s

/-- The engine's end-time string, from the parsed `[hours, minutes]` of the
preferred time and the duration: the minute field is zero-padded, the hour
field is not. -/
def computeEndTime (hours minutes duration : Nat) : String :=
  let endMinutes := minutes + duration
  toString (hours + endMinutes / 60) ++ ":" ++
    padStart2 (toString (endMinutes % 60))

/-- The end-time string the engine would store for a visit whose preferred
time is `t` minutes after midnight (its HH:MM split is `t / 60 : t % 60`). -/
def computedEndTimeOf (t duration : Nat) : String :=
  computeEndTime (t / 60) (t % 60) duration

/-! ## Candidate selection (`findBestCareGiver`) -/

/-- Why no care giver was returned: the two failure strings of the source. -/
inductive FindFailReason
  | noCareGiversWithSkillsInRange
  | allUnavailableOrConflicts
deriving DecidableEq, Repr

/-- `{ careGiver, reason }` as `findBestCareGiver` returns it. -/
structure FindResult where
  careGiver : Option CareGiver
  reason : Option FindFailReason
deriving DecidableEq, Repr

/-- The Mongo candidate query: active, all required skills, optional
exclusion, gender preference, the `singleHandedOnly` filter — applied only
when the visit is NOT double-handed, exactly as the source writes it — and
the geographic `$near` radius. -/
def candidateFilter (env : Env) (careReceiver : CareReceiver) (visit : Visit)
    (excludeCareGiverId : Option Nat) (cg : CareGiver) : Bool :=
  cg.isActive &&
  visit.requirements.all (fun s => cg.skills.contains s) &&
  (match excludeCareGiverId with
   | none => true
   | some ex => cg.id != ex) &&
  (match careReceiver.genderPreference with
   | .noPreference => true
   | .male => cg.gender == .male
   | .female => cg.gender == .female) &&
  (visit.doubleHanded || !cg.singleHandedOnly) &&
  decide (env.dist cg.coordinates careReceiver.coordinates ≤
    env.settings.maxDistanceKm)

/-- The candidate pool: the filtered care givers in `$near` order (ascending
distance from the receiver), capped by `limit(50)`. -/
def candidatePool (env : Env) (careReceiver : CareReceiver) (visit : Visit)
    (excludeCareGiverId : Option Nat) : List CareGiver :=
  (sortLe
    (fun a b =>
      decide (env.dist a.coordinates careReceiver.coordinates ≤
        env.dist b.coordinates careReceiver.coordinates))
    (env.careGivers.filter
      (candidateFilter env careReceiver visit excludeCareGiverId))).take 50

/-- Score of a feasible candidate: distance, minus 10 when the candidate is
the receiver's preferred care giver (lower is better). -/
def scoreOf (env : Env) (careReceiver : CareReceiver) (cg : CareGiver) : ℚ :=
  if careReceiver.preferredCareGiver == some cg.id then
    env.dist careReceiver.coordinates cg.coordinates - 10
  else env.dist careReceiver.coordinates cg.coordinates

/-- `sort((a, b) => a.score - b.score)` then take the head: the first
candidate of minimal score. -/
def pickMinScore : List (CareGiver × ℚ) → Option CareGiver
  | [] => none
  | x :: rest => some ((rest.foldl (fun best y => if y.2 < best.2 then y else best) x).1)

/-- `findBestCareGiver` of schedulingService.js: build the pool, run the
feasibility oracle over each candidate at `[preferredTime, preferredTime +
duration)`, score the feasible ones, return the minimum-score candidate. -/
def findBestCareGiver (env : Env) (appointments : List Appointment)
    (careReceiver : CareReceiver) (visit : Visit) (date : Int)
    (excludeCareGiverId : Option Nat) : FindResult :=
  let pool := candidatePool env careReceiver visit excludeCareGiverId
  if pool.isEmpty then ⟨none, some .noCareGiversWithSkillsInRange⟩
  else
    let endTime := visit.preferredTime + visit.duration
    let scored := pool.filterMap fun cg =>
      if (isCareGiverAvailable env appointments cg.id date visit.preferredTime
          endTime careReceiver.coordinates none).available then
        some (cg, scoreOf env careReceiver cg)
      else none
    if scored.isEmpty then ⟨none, some .allUnavailableOrConflicts⟩
    else ⟨pickMinScore scored, none⟩

/-- `findSecondaryCareGiver`: the same search with the primary excluded. -/
def findSecondaryCareGiver (env : Env) (appointments : List Appointment)
    (careReceiver : CareReceiver) (visit : Visit) (date : Int)
    (primaryCareGiverId : Nat) : FindResult :=
  findBestCareGiver env appointments careReceiver visit date
    (some primaryCareGiverId)

/-! ## Assignment engine (`scheduleForCareReceiver`) -/

/-- Failure reasons the engine records in `failed[]`. -/
inductive ScheduleFailReason
  | primaryNotFound (r : FindFailReason)
  | noSecondaryAvailable (r : FindFailReason)
  | createValidationError
deriving DecidableEq, Repr

/-- One `failed[]` entry: `{ visit, date, reason }`. -/
structure ScheduleFailure where
  visitNumber : Nat
  date : Int
  reason : ScheduleFailReason
deriving DecidableEq, Repr

/-- Running state of one engine run: the appointment collection (every
created appointment is visible to later feasibility checks), the run's
`scheduled[]` and `failed[]`, and the next fresh document id. -/
structure ScheduleState where
  appointments : List Appointment
  scheduled : List Appointment
  failed : List ScheduleFailure
  nextAptId : Nat
deriving DecidableEq, Repr

/-- A document id fresh for every appointment in the collection. -/
def freshAptId (appointments : List Appointment) : Nat :=
  appointments.foldl (fun m a => max m (a.id + 1)) 0

/-- One (date, visit template) step of the engine: recurrence gate, primary
search, secondary search when double-handed (the primary is not committed
when it fails), then `Appointment.create` — which the schema rejects when the
computed end-time string does not match the HH:MM regex. -/
def processVisit (env : Env) (careReceiver : CareReceiver) (currentDate : Int)
    (st : ScheduleState) (visit : Visit) : ScheduleState :=
  if !(shouldVisitOccur visit currentDate careReceiver.createdAt) then st
  else
    let primaryResult :=
      findBestCareGiver env st.appointments careReceiver visit currentDate none
    match primaryResult.careGiver with
    | none =>
      { st with failed := st.failed ++
          [⟨visit.visitNumber, currentDate,
            .primaryNotFound (primaryResult.reason.getD .allUnavailableOrConflicts)⟩] }
    | some primaryCG =>
      let secondaryStep : Except FindFailReason (Option CareGiver) :=
        if visit.doubleHanded then
          let secondaryResult :=
            findSecondaryCareGiver env st.appointments careReceiver visit
              currentDate primaryCG.id
          match secondaryResult.careGiver with
          | none => .error (secondaryResult.reason.getD .allUnavailableOrConflicts)
          | some s => .ok (some s)
        else .ok none
      match secondaryStep with
      | .error r =>
        { st with failed := st.failed ++
            [⟨visit.visitNumber, currentDate, .noSecondaryAvailable r⟩] }
      | .ok secondaryCareGiver =>
        if matchesHHMM (computedEndTimeOf visit.preferredTime visit.duration) then
          let apt : Appointment :=
            { id := st.nextAptId
              careReceiver := careReceiver.id
              careGiver := primaryCG.id
              secondaryCareGiver := secondaryCareGiver.map (fun cg => cg.id)
              date := currentDate
              startTime := visit.preferredTime
              endTime := visit.preferredTime + visit.duration
              duration := visit.duration
              visitNumber := visit.visitNumber
              doubleHanded := visit.doubleHanded
              status := .scheduled }
          { st with
              appointments := st.appointments ++ [apt]
              scheduled := st.scheduled ++ [apt]
              nextAptId := st.nextAptId + 1 }
        else
          { st with failed := st.failed ++
              [⟨visit.visitNumber, currentDate, .createValidationError⟩] }

/-- The inclusive day iteration `while (currentDate <= endDate)`. -/
def dateRange (startDate endDate : Int) : List Int :=
  (List.range (endDate + 1 - startDate).toNat).map (fun i => startDate + i)

/-- `scheduleForCareReceiver`: for each day of the range, for each visit
template in stored order, run `processVisit` against the accumulated state. -/
def scheduleForCareReceiver (env : Env) (appointments : List Appointment)
    (careReceiver : CareReceiver) (startDate endDate : Int) : ScheduleState :=
  (dateRange startDate endDate).foldl
    (fun st d => careReceiver.dailyVisits.foldl (processVisit env careReceiver d) st)
    ⟨appointments, [], [], freshAptId appointments⟩

/-! ## Availability store: `createNewVersion` -/

/-- A version that is open-ended and active for this care giver — the set
`createNewVersion`'s closing `updateMany` targets. -/
def isOpenActiveFor (careGiverId : Nat) (a : AvailabilityVersion) : Bool :=
  a.careGiver == careGiverId && a.effectiveTo == none && a.isActive

/-- Greatest stored version number for a care giver (0 when none); the
source's `findOne.sort({ version: -1 })` then `+ 1`-or-`1`. -/
def maxVersionFor (store : List AvailabilityVersion) (careGiverId : Nat) : Nat :=
  (store.filter (fun a => a.careGiver == careGiverId)).foldl
    (fun m a => max m a.version) 0

/-- `Availability.createNewVersion`: close every open active version of the
care giver (set `effectiveTo` to the new `effectiveFrom`, clear `isActive`),
then append one open version numbered `max existing + 1`. The version lookup
runs after the close in the source, but closing changes no `version` field,
so reading it off the input store is the same. -/
def createNewVersion (store : List AvailabilityVersion) (careGiverId : Nat)
    (newSchedule : List DaySchedule) (newTimeOff : List TimeOffEntry)
    (effectiveFrom : Int) (freshId : Nat) : List AvailabilityVersion :=
  let closed := store.map fun a =>
    if isOpenActiveFor careGiverId a then
      { a with effectiveTo := some effectiveFrom, isActive := false }
    else a
  closed ++
    [{ id := freshId
       careGiver := careGiverId
       effectiveFrom := effectiveFrom
       effectiveTo := none
       schedule := newSchedule
       timeOff := newTimeOff
       isActive := true
       version := maxVersionFor store careGiverId + 1 }]

/-- One availability-version creation request. -/
structure VersionOp where
  careGiver : Nat
  schedule : List DaySchedule
  timeOff : List TimeOffEntry
  effectiveFrom : Int
deriving DecidableEq, Repr

/-- A document id fresh for every version in the store. -/
def freshVersionId (store : List AvailabilityVersion) : Nat :=
  store.foldl (fun m a => max m (a.id + 1)) 0

/-- A sequence of `create_version` operations applied to an empty store
(the collection is append-only and only this operation writes it). -/
def applyVersionOps (ops : List VersionOp) : List AvailabilityVersion :=
  ops.foldl
    (fun store op =>
      createNewVersion store op.careGiver op.schedule op.timeOff
        op.effectiveFrom (freshVersionId store))
    []

/-- Number of open active versions a care giver has. -/
def openCount (store : List AvailabilityVersion) (careGiverId : Nat) : Nat :=
  (store.filter (isOpenActiveFor careGiverId)).length

/-! ## Diagnostic analyzer (`analyzeUnscheduledAppointment`) -/

/-- One row of the analyzer's report. The `rejectionReasons` strings of the
source accompany exactly the penalties and carry no further information, so
they are elided. -/
structure CareGiverAnalysis where
  id : Nat
  canAssign : Bool
  matchScore : Int
  distance : Option ℚ
deriving DecidableEq, Repr

/-- Check 8's for-loop: penalty of the first existing appointment that
triggers the overlap check (−40) or, failing that on the same appointment,
the travel-buffer check (−25, only against a different receiver's
appointment); the loop breaks at the first hit. -/
def conflictScan (buffer : Nat) (forReceiverId : Nat) (startTime endTime : Nat) :
    List Appointment → Option Int
  | [] => none
  | apt :: rest =>
    if overlapsApt apt startTime endTime then some 40
    else if apt.careReceiver != forReceiverId &&
        (let timeBetweenStart := Int.natAbs ((startTime : Int) - (apt.endTime : Int))
         let timeBetweenEnd := Int.natAbs ((endTime : Int) - (apt.startTime : Int))
         let minTimeBetween := min timeBetweenStart timeBetweenEnd
         decide (0 < minTimeBetween) && decide (minTimeBetween < buffer)) then
      some 25
    else conflictScan buffer forReceiverId startTime endTime rest

/-- The analyzer's recurring statement pair `analysis.canAssign = false;
analysis.matchScore -= p`, fired on a check's condition. -/
def penalize (st : Bool × Int) (fires : Bool) (penalty : Int) : Bool × Int :=
  if fires then (false, st.2 - penalty) else st

/-- Check 1: gender preference (−30, blocks). State starts at
`(canAssign = true, matchScore = 100)`. -/
def analyzeStep1 (careReceiver : CareReceiver) (cg : CareGiver) : Bool × Int :=
  let genderBad : Bool :=
    match careReceiver.genderPreference with
    | .noPreference => false
    | .male => !(cg.gender == .male)
    | .female => !(cg.gender == .female)
  penalize (true, 100) genderBad 30

/-- The required skills the care giver lacks. -/
def missingSkillsOf (visit : Visit) (cg : CareGiver) : List Skill :=
  visit.requirements.filter (fun sk => !(cg.skills.contains sk))

/-- Check 2: missing skills (−25 each, blocks). -/
def analyzeStep2 (careReceiver : CareReceiver) (visit : Visit) (cg : CareGiver) :
    Bool × Int :=
  penalize (analyzeStep1 careReceiver cg)
    (decide (0 < (missingSkillsOf visit cg).length))
    (25 * (missingSkillsOf visit cg).length)

/-- Check 3: double-handed visit with a single-handed-only care giver (−50,
blocks). -/
def analyzeStep3 (careReceiver : CareReceiver) (visit : Visit) (cg : CareGiver) :
    Bool × Int :=
  penalize (analyzeStep2 careReceiver visit cg)
    (visit.doubleHanded && cg.singleHandedOnly) 50

/-- The analyzer's availability resolution: its own (unsorted) `findOne` on
the version collection, falling back to the inline schedule and holiday
list. -/
def analyzerAvailability (env : Env) (cg : CareGiver) (date : Int) :
    Option (List DaySchedule × List TimeOffEntry) :=
  match env.availabilities.find? (availMatchesCurrent cg.id date) with
  | some av => some (av.schedule, av.timeOff)
  | none =>
    if !cg.availability.isEmpty then some (cg.availability, cg.timeOff)
    else none

/-- Checks 4 and 5: no availability at all (−100), not working that weekday
(−40), visit not inside a slot (−30), then time off (−100); all block. -/
def analyzeStep5 (env : Env) (careReceiver : CareReceiver) (visit : Visit)
    (date : Int) (cg : CareGiver) : Bool × Int :=
  match analyzerAvailability env cg date with
  | none => penalize (analyzeStep3 careReceiver visit cg) true 100
  | some (schedule, timeOffList) =>
    let step4 : Bool × Int :=
      match schedule.find? (fun s => s.dayOfWeek == dayOfWeekOf date) with
      | none => penalize (analyzeStep3 careReceiver visit cg) true 40
      | some daySchedule =>
        if daySchedule.slots.isEmpty then
          penalize (analyzeStep3 careReceiver visit cg) true 40
        else
          penalize (analyzeStep3 careReceiver visit cg)
            (!isInWorkingHours daySchedule.slots visit.preferredTime
              (visit.preferredTime + visit.duration)) 30
    penalize step4
      (timeOffList.any fun t =>
        decide (t.startDate ≤ date) && decide (date ≤ t.endDate)) 100

/-- Check 6: too far (−20, blocks), or the rounded closeness bonus. -/
def analyzeStep6 (env : Env) (careReceiver : CareReceiver) (visit : Visit)
    (date : Int) (cg : CareGiver) : Bool × Int :=
  let step5 := analyzeStep5 env careReceiver visit date cg
  let distance := env.dist cg.coordinates careReceiver.coordinates
  if env.settings.maxDistanceKm < distance then penalize step5 true 20
  else
    (step5.1, step5.2 + round ((env.settings.maxDistanceKm - distance) /
      env.settings.maxDistanceKm * 10))

/-- The analyzer's same-day appointment query (primary role only, active
statuses). -/
def analyzerDayAppointments (appointments : List Appointment) (cg : CareGiver)
    (date : Int) : List Appointment :=
  appointments.filter fun apt =>
    apt.careGiver == cg.id && apt.date == date && isActiveStatus apt.status

/-- Check 7: at or above the daily cap (−30, blocks). -/
def analyzeStep7 (env : Env) (appointments : List Appointment)
    (careReceiver : CareReceiver) (visit : Visit) (date : Int)
    (cg : CareGiver) : Bool × Int :=
  penalize (analyzeStep6 env careReceiver visit date cg)
    (decide (env.settings.maxAppointmentsPerDay ≤
      (analyzerDayAppointments appointments cg date).length)) 30

/-- Check 8: first conflicting appointment (−40 overlap / −25 travel,
blocks). -/
def analyzeStep8 (env : Env) (appointments : List Appointment)
    (careReceiver : CareReceiver) (visit : Visit) (date : Int)
    (cg : CareGiver) : Bool × Int :=
  match conflictScan env.settings.travelTimeBufferMinutes careReceiver.id
      visit.preferredTime (visit.preferredTime + visit.duration)
      (sortLe (fun a b => decide (a.startTime ≤ b.startTime))
        (analyzerDayAppointments appointments cg date)) with
  | some p => penalize (analyzeStep7 env appointments careReceiver visit date cg) true p
  | none => analyzeStep7 env appointments careReceiver visit date cg

/-- Per-care-giver analysis of scheduleAnalysisController.js: the eight
checks in source order, final score clamped to [0, 100]. -/
def analyzeCareGiver (env : Env) (appointments : List Appointment)
    (careReceiver : CareReceiver) (visit : Visit) (date : Int)
    (cg : CareGiver) : CareGiverAnalysis :=
  { id := cg.id
    canAssign := (analyzeStep8 env appointments careReceiver visit date cg).1
    matchScore :=
      max 0 (min 100 (analyzeStep8 env appointments careReceiver visit date cg).2)
    distance := some (env.dist cg.coordinates careReceiver.coordinates) }

/-- The analyzer's returned list: every active care giver analyzed, sorted by
`(a, b) => b.matchScore - a.matchScore` (descending match score). -/
def analyzeUnscheduled (env : Env) (appointments : List Appointment)
    (careReceiver : CareReceiver) (visit : Visit) (date : Int) :
    List CareGiverAnalysis :=
  sortLe (fun a b => decide (b.matchScore ≤ a.matchScore))
    ((env.careGivers.filter (fun cg => cg.isActive)).map
      (analyzeCareGiver env appointments careReceiver visit date))

/-! ## Manual appointment creation (`createManualAppointment`) -/

/-- The request body of POST /schedule/appointments/manual, with `Option` for
absence. Clock times are minute values: the HH:MM strings of the wire format
are schema-validated on create, and a well-formed string is its minute
count under the lexicographic = numeric correspondence. -/
structure ManualAppointmentRequest where
  careReceiverId : Option Nat
  careGiverId : Option Nat
  secondaryCareGiverId : Option Nat
  date : Option Int
  startTime : Option Nat
  endTime : Option Nat
  duration : Option Nat
  visitNumber : Option Nat
  doubleHanded : Option Bool
deriving DecidableEq, Repr

/-- The controller's outcome: 400 MISSING_FIELDS, 404
CARE_RECEIVER_NOT_FOUND, 404 CARE_GIVER_NOT_FOUND, or 201 with the created
appointment. -/
inductive ManualCreateResult
  | missingFields
  | careReceiverNotFound
  | careGiverNotFound
  | created (apt : Appointment)
deriving DecidableEq, Repr

/-- `createManualAppointment` of scheduleController.js: require the five
fields, look up the two entities, then `Appointment.create` directly — no
feasibility, overlap, capacity or working-hours consultation appears between
the lookups and the create. -/
def createManualAppointment (env : Env) (appointments : List Appointment)
    (req : ManualAppointmentRequest) : ManualCreateResult :=
  match req.careReceiverId, req.careGiverId, req.date, req.startTime, req.endTime with
  | some crId, some cgId, some date, some startTime, some endTime =>
    match env.careReceivers.find? (fun r => r.id == crId) with
    | none => .careReceiverNotFound
    | some _ =>
      match env.careGivers.find? (fun g => g.id == cgId) with
      | none => .careGiverNotFound
      | some _ =>
        .created
          { id := freshAptId appointments
            careReceiver := crId
            careGiver := cgId
            secondaryCareGiver := req.secondaryCareGiverId
            date := date
            startTime := startTime
            endTime := endTime
            duration := req.duration.getD 60
            visitNumber := req.visitNumber.getD 1
            doubleHanded := req.doubleHanded.getD false
            status := .scheduled }
  | _, _, _, _, _ => .missingFields

/-- `Availability.isOnTimeOff` (Availability.js): some `timeOff` interval of
the version contains the date. -/
def AvailabilityVersion.isOnTimeOff (a : AvailabilityVersion) (date : Int) : Bool :=
  a.timeOff.any fun t => decide (t.startDate ≤ date) && decide (date ≤ t.endDate)

/-- The environment with every availability version's `timeOff` list blanked;
used to state that the feasibility oracle never reads that field. -/
def stripVersionTimeOff (env : Env) : Env :=
  { env with availabilities := env.availabilities.map fun a => { a with timeOff := [] } }

/-! ## Concrete scenario (for counterexamples and witnesses)

One care receiver (id 0, location 0) with a 10:00–11:00 visit requiring
`personal_care`; care givers working 08:00–18:00 every day. Day 4 is a
Monday. Distances: location 1 is 1 km from the receiver, location 2 is
2 km. -/

def exSlot : TimeSlot := ⟨480, 1080⟩

def exFullSched : List DaySchedule := allDays.map fun w => ⟨w, [exSlot]⟩

def exVisit : Visit :=
  ⟨1, 600, 60, none, none, 1, none, [.personalCare], false, 3⟩

def exVisitDH : Visit :=
  ⟨1, 600, 60, none, none, 1, none, [.personalCare], true, 3⟩

def exCgA : CareGiver := ⟨1, true, .female, [.personalCare], false, 1, exFullSched, []⟩

def exCgB : CareGiver := ⟨2, true, .female, [.personalCare], false, 2, exFullSched, []⟩

/-- A single-handed-only care giver otherwise identical to `exCgA`. -/
def exCgSHO : CareGiver := ⟨3, true, .female, [.personalCare], true, 1, exFullSched, []⟩

def exReceiver : CareReceiver := ⟨0, true, .noPreference, none, 0, [exVisit], 0⟩

def exReceiverDH : CareReceiver := ⟨0, true, .noPreference, none, 0, [exVisitDH], 0⟩

def exDist : Nat → Nat → ℚ := fun a b =>
  if a == b then 0
  else if (a == 0 && b == 1) || (a == 1 && b == 0) then 1
  else 2

def exSettings : Settings := ⟨20, 15, 8⟩

def exEnv : Env := ⟨[exCgA, exCgB], [exReceiver], [], exSettings, exDist, fun _ _ => 0⟩

def exEnvSingle : Env := ⟨[exCgA], [exReceiver], [], exSettings, exDist, fun _ _ => 0⟩

def exEnvDH : Env := ⟨[exCgA], [exReceiverDH], [], exSettings, exDist, fun _ _ => 0⟩

def exEnvSHO : Env := ⟨[exCgSHO], [exReceiverDH], [], exSettings, exDist, fun _ _ => 0⟩

def exEnvPair : Env := ⟨[exCgA, exCgSHO], [exReceiverDH], [], exSettings, exDist, fun _ _ => 0⟩

/-- First generate run over the single Monday, from an empty collection. -/
def exRun1 : ScheduleState := scheduleForCareReceiver exEnv [] exReceiver 4 4

/-- Second generate run over the same day, on the state the first run left. -/
def exRun2 : ScheduleState :=
  scheduleForCareReceiver exEnv exRun1.appointments exReceiver 4 4

/-- An availability version for `exCgA` whose `timeOff` covers day 4. -/
def exVersionTO : AvailabilityVersion :=
  ⟨10, 1, 0, none, exFullSched, [⟨4, 4, some "Holiday"⟩], true, 1⟩

def exEnvC2 : Env := ⟨[exCgA], [exReceiver], [exVersionTO], exSettings, exDist, fun _ _ => 0⟩

/-- A care giver on inline time off over day 4. -/
def exCgInlineTO : CareGiver :=
  ⟨1, true, .female, [.personalCare], false, 1, exFullSched, [⟨4, 4, some "Leave"⟩]⟩

def exEnvInlineTO : Env :=
  ⟨[exCgInlineTO], [exReceiver], [], exSettings, exDist, fun _ _ => 0⟩

/-- An already-booked 10:00–11:00 appointment of care giver 1 on day 4. -/
def exBooked : Appointment :=
  ⟨0, 0, 1, none, 4, 600, 660, 60, 1, false, .scheduled⟩

/-- A manual-creation request for 10:30–11:30 with the same care giver and
day as `exBooked`. -/
def exManualReq : ManualAppointmentRequest :=
  ⟨some 0, some 1, none, some 4, some 630, some 690, none, none, none⟩

/-- The appointment the first example run creates (care giver 1). -/
def exApt1 : Appointment := ⟨0, 0, 1, none, 4, 600, 660, 60, 1, false, .scheduled⟩

/-- The duplicate the second example run creates (care giver 2). -/
def exApt2 : Appointment := ⟨1, 0, 2, none, 4, 600, 660, 60, 1, false, .scheduled⟩

/-! ## List lemmas for the stable insertion sort -/

theorem mem_insertLe {α : Type} (le : α → α → Bool) (a x : α) (l : List α) :
    x ∈ insertLe le a l ↔ x = a ∨ x ∈ l := by
  induction l with
  | nil => simp [insertLe]
  | cons b rest ih =>
    rw [insertLe]
    by_cases h : le b a = true
    all_goals simp only [h, if_true, if_false, Bool.false_eq_true, List.mem_cons, ih]
    all_goals tauto

theorem mem_sortLe {α : Type} (le : α → α → Bool) (x : α) (l : List α) :
    x ∈ sortLe le l ↔ x ∈ l := by
  induction l with
  | nil => simp [sortLe]
  | cons b rest ih =>
    simp only [sortLe, List.foldr_cons, List.mem_cons] at ih ⊢
    rw [mem_insertLe]
    tauto

/-! ## Recurrence expansion (C6) -/

/-- Pointwise agreement of the engine's `shouldVisitOccur` with the spec's
expansion rule, for schema-valid interval values (`recurrenceInterval ≥ 1`,
its schema minimum, where the engine's `|| 1` default is the identity). -/
theorem shouldVisitOccur_eq_spec (visit : Visit) (createdAt d : Int)
    (h : 1 ≤ visit.recurrenceInterval) :
    shouldVisitOccur visit d createdAt = specExpandsOn visit d createdAt := by
  unfold shouldVisitOccur specExpandsOn recurrenceMatches
  have h0 : ¬(visit.recurrenceInterval = 0) := by omega
  rw [if_neg h0]
  cases hcon : (visit.daysOfWeek.getD allDays).contains (dayOfWeekOf d) with
  | false =>
    simp [hcon]
    intro hmem
    exact absurd hmem (by simpa using hcon)
  | true =>
    simp only [hcon, Bool.not_true, Bool.true_and, if_neg, Bool.false_eq_true]
    cases visit.recurrencePattern.getD .weekly <;> simp

/-- C6: a template does not expand on a day whose weekday is outside its
(defaulted) `days_of_week`; a weekly template expands on every remaining day;
a non-weekly template expands exactly when `weeks = floor((day − anchor) / 7)`
satisfies `weeks ≥ 0 ∧ weeks mod recurrence_interval = 0` with anchor the
`recurrence_start_date` or else the receiver's `created_at` — so over any
window the expanded date set is exactly the filter of the spec's
predicate. -/
theorem expansion_follows_recurrence_rule (visit : Visit) (createdAt : Int)
    (h : 1 ≤ visit.recurrenceInterval) :
    (∀ d, shouldVisitOccur visit d createdAt = specExpandsOn visit d createdAt) ∧
    (∀ window : List Int,
      window.filter (fun d => shouldVisitOccur visit d createdAt) =
        window.filter (fun d => specExpandsOn visit d createdAt)) := by
  have key := fun d => shouldVisitOccur_eq_spec visit createdAt d h
  exact ⟨key, fun window => by simp only [key]⟩

/-- Witness for C6 at the concrete template `exVisit`. -/
theorem expansion_follows_recurrence_rule_witness :
    1 ≤ exVisit.recurrenceInterval ∧
    (∀ d, shouldVisitOccur exVisit d 0 = specExpandsOn exVisit d 0) :=
  ⟨by decide, (expansion_follows_recurrence_rule exVisit 0 (by decide)).1⟩

/-! ## End-time string (C4) -/

/-- C4: for the schema-valid visit 08:00 + 60 minutes, the end-time string the
assignment engine computes is "9:00", whose hour field is not zero-padded, so
it fails the HH:MM regex that the Appointment schema itself enforces on
`endTime` (the zero-padded "09:00" passes). -/
theorem computed_endTime_violates_hhmm_regex :
    computedEndTimeOf 480 60 = "9:00" ∧
    matchesHHMM (computedEndTimeOf 480 60) = false ∧
    matchesHHMM "09:00" = true ∧
    matchesHHMM "08:00" = true := by decide

/-! ## Single-handed-only filter (C3) -/

/-- C3: the candidate query applies the `singleHandedOnly` exclusion only
when the visit is NOT double-handed, so for the double-handed visit
`exVisitDH` the single-handed-only care giver `exCgSHO` is selected — as
primary when it is the only candidate, and as secondary when a primary is
excluded. -/
theorem doubleHanded_selects_singleHandedOnly :
    exVisitDH.doubleHanded = true ∧
    exCgSHO.singleHandedOnly = true ∧
    (findBestCareGiver exEnvSHO [] exReceiverDH exVisitDH 4 none).careGiver =
      some exCgSHO ∧
    (findSecondaryCareGiver exEnvPair [] exReceiverDH exVisitDH 4
      exCgA.id).careGiver = some exCgSHO := by decide

/-! ## Idempotence counterexample (C1) -/

/-- C1 counterexample: with two feasible care givers, the first run books the
visit with care giver 1; the second run over the identical range and entities
inserts a second appointment for the same `(receiver, date, visit_number)`
key `(0, 4, 1)`, assigned to care giver 2 — the rerun is not idempotent. -/
theorem second_run_inserts_duplicate :
    (exRun1.scheduled.map fun a => (a.careReceiver, a.date, a.visitNumber, a.careGiver)) =
      [(0, 4, 1, 1)] ∧
    (exRun2.scheduled.map fun a => (a.careReceiver, a.date, a.visitNumber, a.careGiver)) =
      [(0, 4, 1, 2)] := by decide

/-! ## Versioned time off is not consulted (C2 counterexample) -/

/-- C2 counterexample: care giver 1 has a current availability version whose
`timeOff` covers day 4 (`isOnTimeOff` is true) and an empty inline holiday
list; the feasibility oracle nevertheless reports available for day 4. -/
theorem oracle_passes_versioned_timeOff :
    getCurrentForCareGiver exEnvC2.availabilities 1 4 = some exVersionTO ∧
    exVersionTO.isOnTimeOff 4 = true ∧
    (isCareGiverAvailable exEnvC2 [] 1 4 600 660 0 none).available = true := by
  decide


theorem oracle_inline_timeOff_rejects
    (env : Env) (appointments : List Appointment) (careGiverId : Nat) (date : Int)
    (s e loc : Nat) (ex : Option Nat) (cg : CareGiver) (t : TimeOffEntry)
    (hfind : env.careGivers.find? (fun c => c.id == careGiverId) = some cg)
    (hact : cg.isActive = true)
    (hhit : firstTimeOffHit cg.timeOff date = some t) :
    isCareGiverAvailable env appointments careGiverId date s e loc ex =
      ⟨false, .onTimeOff t.reason⟩ := by
  unfold isCareGiverAvailable
  rw [hfind]
  simp [hact, hhit]

theorem newerOf_strip (acc : Option AvailabilityVersion) (a : AvailabilityVersion) :
    newerOf (acc.map fun v => { v with timeOff := [] }) { a with timeOff := [] } =
      (newerOf acc a).map fun v => { v with timeOff := [] } := by
  cases acc with
  | none => rfl
  | some b =>
    simp only [Option.map_some', newerOf]
    by_cases h : b.effectiveFrom < a.effectiveFrom
    · rw [if_pos h, if_pos h, Option.map_some']
    · rw [if_neg h, if_neg h, Option.map_some']

theorem getCurrentForCareGiver_strip (avails : List AvailabilityVersion) (cg : Nat) (d : Int) :
    getCurrentForCareGiver (avails.map fun a => { a with timeOff := [] }) cg d =
      (getCurrentForCareGiver avails cg d).map fun a => { a with timeOff := [] } := by
  unfold getCurrentForCareGiver
  rw [List.filter_map]
  have hpred : (availMatchesCurrent cg d ∘ fun a => { a with timeOff := [] }) =
      availMatchesCurrent cg d := rfl
  rw [hpred, List.foldl_map]
  exact List.foldl_hom (Option.map fun v => { v with timeOff := [] }) newerOf
    (fun acc a => newerOf acc { a with timeOff := [] })
    (avails.filter (availMatchesCurrent cg d)) none
    (fun x y => newerOf_strip x y)

theorem oracle_ignores_versioned_timeOff (env : Env) (appointments : List Appointment)
    (careGiverId : Nat) (date : Int) (s e loc : Nat) (ex : Option Nat) :
    isCareGiverAvailable (stripVersionTimeOff env) appointments careGiverId date s e loc ex =
      isCareGiverAvailable env appointments careGiverId date s e loc ex := by
  unfold isCareGiverAvailable stripVersionTimeOff
  simp only [getCurrentForCareGiver_strip]
  cases getCurrentForCareGiver env.availabilities careGiverId date with
  | none => rfl
  | some av => rfl



theorem isOpenActiveFor_closed (cgx : Nat) (a : AvailabilityVersion) (eff : Int) :
    isOpenActiveFor cgx
      ({ a with effectiveTo := some eff, isActive := false } : AvailabilityVersion) = false := by
  simp [isOpenActiveFor]

theorem isOpenActiveFor_closeStep (cg cgx : Nat) (eff : Int) (a : AvailabilityVersion)
    (h : ¬(cgx = cg)) :
    isOpenActiveFor cgx
      (if isOpenActiveFor cg a then
        { a with effectiveTo := some eff, isActive := false } else a) =
      isOpenActiveFor cgx a := by
  by_cases ho : isOpenActiveFor cg a = true
  · rw [if_pos ho, isOpenActiveFor_closed]
    unfold isOpenActiveFor at ho ⊢
    have hcg : a.careGiver = cg := by
      have := (Bool.and_eq_true ..).mp ((Bool.and_eq_true ..).mp ho).1
      exact (beq_iff_eq ..).mp this.1
    have : (a.careGiver == cgx) = false := by
      rw [hcg]
      exact beq_false_of_ne (fun hh => h hh.symm)
    simp [this]
  · rw [if_neg ho]

theorem openCount_createNewVersion (store : List AvailabilityVersion)
    (cg : Nat) (sched : List DaySchedule) (toff : List TimeOffEntry)
    (eff : Int) (fid : Nat) (cgx : Nat) :
    openCount (createNewVersion store cg sched toff eff fid) cgx =
      if cgx = cg then 1 else openCount store cgx := by
  unfold createNewVersion openCount
  rw [List.filter_append, List.length_append]
  by_cases hcg : cgx = cg
  · subst hcg
    rw [if_pos rfl]
    have h0 : (store.map fun a =>
        if isOpenActiveFor cgx a then
          { a with effectiveTo := some eff, isActive := false } else a).filter
        (isOpenActiveFor cgx) = [] := by
      rw [List.filter_eq_nil_iff]
      intro b hb
      rcases List.mem_map.mp hb with ⟨a, _, rfl⟩
      by_cases ho : isOpenActiveFor cgx a = true
      · rw [if_pos ho, isOpenActiveFor_closed cgx]
        simp
      · rw [if_neg ho]
        simpa using ho
    rw [h0]
    simp [isOpenActiveFor]
  · rw [if_neg hcg]
    have h1 : ((store.map fun a =>
        if isOpenActiveFor cg a then
          { a with effectiveTo := some eff, isActive := false } else a).filter
        (isOpenActiveFor cgx)).length = openCount store cgx := by
      unfold openCount
      rw [← List.countP_eq_length_filter, ← List.countP_eq_length_filter,
        List.countP_map]
      apply List.countP_congr
      intro a _
      simp only [Function.comp_apply, isOpenActiveFor_closeStep cg cgx eff a hcg]
    have h2 : (isOpenActiveFor cgx
        ({ id := fid, careGiver := cg, effectiveFrom := eff, effectiveTo := none,
           schedule := sched, timeOff := toff, isActive := true,
           version := maxVersionFor store cg + 1 } : AvailabilityVersion)) = false := by
      unfold isOpenActiveFor
      have : (cg == cgx) = false := beq_false_of_ne (fun hh => hcg hh.symm)
      simp [this]
    rw [h1]
    simp only [List.filter_cons, h2, Bool.false_eq_true, if_false, List.filter_nil,
      List.length_nil, Nat.add_zero]
    rfl



theorem applyVersionOps_atMostOneOpen (ops : List VersionOp) (cgx : Nat) :
    openCount (applyVersionOps ops) cgx ≤ 1 := by
  suffices h : ∀ store : List AvailabilityVersion, (∀ c, openCount store c ≤ 1) →
      ∀ c, openCount (ops.foldl
        (fun store op =>
          createNewVersion store op.careGiver op.schedule op.timeOff
            op.effectiveFrom (freshVersionId store)) store) c ≤ 1 by
    exact h [] (fun c => by simp [openCount]) cgx
  induction ops with
  | nil => intro store h c; exact h c
  | cons op rest ih =>
    intro store h c
    simp only [List.foldl_cons]
    apply ih
    intro c2
    rw [openCount_createNewVersion]
    by_cases hc : c2 = op.careGiver
    · simp [hc]
    · rw [if_neg hc]
      exact h c2

theorem createNewVersion_closes_all (store : List AvailabilityVersion)
    (cg : Nat) (sched : List DaySchedule) (toff : List TimeOffEntry)
    (eff : Int) (fid : Nat) :
    ∀ a ∈ store, isOpenActiveFor cg a = true →
      ({ a with effectiveTo := some eff, isActive := false } : AvailabilityVersion) ∈
        createNewVersion store cg sched toff eff fid := by
  intro a ha hopen
  unfold createNewVersion
  apply List.mem_append_left
  refine List.mem_map.mpr ⟨a, ha, ?_⟩
  rw [if_pos hopen]

theorem createNewVersion_unique_open (store : List AvailabilityVersion)
    (cg : Nat) (sched : List DaySchedule) (toff : List TimeOffEntry)
    (eff : Int) (fid : Nat) :
    ∀ a ∈ createNewVersion store cg sched toff eff fid,
      isOpenActiveFor cg a = true →
      a = { id := fid, careGiver := cg, effectiveFrom := eff, effectiveTo := none,
            schedule := sched, timeOff := toff, isActive := true,
            version := maxVersionFor store cg + 1 } := by
  intro a ha hopen
  unfold createNewVersion at ha
  rcases List.mem_append.mp ha with hmem | hmem
  · rcases List.mem_map.mp hmem with ⟨b, _, rfl⟩
    by_cases ho : isOpenActiveFor cg b = true
    · rw [if_pos ho] at hopen
      rw [isOpenActiveFor_closed] at hopen
      exact absurd hopen (by simp)
    · rw [if_neg ho] at hopen
      exact absurd hopen ho
  · simpa using hmem


/-- C2 (amended): the holiday check of the feasibility oracle reads only the
inline `timeOff` list of the CareGiver record: for an existing active care
giver, a query date inside an inline interval yields unavailable with a
time-off reason; the `timeOff` list of the current availability version is
never consulted — blanking every version's `timeOff` changes no oracle
answer. -/
theorem holiday_check_reads_inline_list_only :
    (∀ (env : Env) (appointments : List Appointment) (careGiverId : Nat)
      (date : Int) (s e loc : Nat) (ex : Option Nat) (cg : CareGiver)
      (t : TimeOffEntry),
      env.careGivers.find? (fun c => c.id == careGiverId) = some cg →
      cg.isActive = true →
      firstTimeOffHit cg.timeOff date = some t →
      isCareGiverAvailable env appointments careGiverId date s e loc ex =
        ⟨false, .onTimeOff t.reason⟩) ∧
    (∀ (env : Env) (appointments : List Appointment) (careGiverId : Nat)
      (date : Int) (s e loc : Nat) (ex : Option Nat),
      isCareGiverAvailable (stripVersionTimeOff env) appointments careGiverId
        date s e loc ex =
        isCareGiverAvailable env appointments careGiverId date s e loc ex) :=
  ⟨fun env apts cgId d s e loc ex cg t hf ha hh =>
      oracle_inline_timeOff_rejects env apts cgId d s e loc ex cg t hf ha hh,
    fun env apts cgId d s e loc ex =>
      oracle_ignores_versioned_timeOff env apts cgId d s e loc ex⟩

/-- C9: creating a new availability version closes every currently-open
active version of that care giver (its closed image, `effectiveTo :=
effective_from` and `isActive := false`, is in the result), the only open
active version left is the inserted one, numbered max existing version + 1;
per-care-giver open counts become exactly 1 for that care giver and stay
untouched for others, so any sequence of create operations leaves at most
one open active version per care giver. -/
theorem version_creation_invariant (store : List AvailabilityVersion)
    (cg : Nat) (sched : List DaySchedule) (toff : List TimeOffEntry)
    (eff : Int) (fid : Nat) :
    (∀ a ∈ store, isOpenActiveFor cg a = true →
      ({ a with effectiveTo := some eff, isActive := false } : AvailabilityVersion) ∈
        createNewVersion store cg sched toff eff fid) ∧
    (∀ a ∈ createNewVersion store cg sched toff eff fid,
      isOpenActiveFor cg a = true →
      a = { id := fid, careGiver := cg, effectiveFrom := eff, effectiveTo := none,
            schedule := sched, timeOff := toff, isActive := true,
            version := maxVersionFor store cg + 1 }) ∧
    (∀ cgx, openCount (createNewVersion store cg sched toff eff fid) cgx =
      if cgx = cg then 1 else openCount store cgx) ∧
    (∀ ops : List VersionOp, ∀ cgx, openCount (applyVersionOps ops) cgx ≤ 1) :=
  ⟨createNewVersion_closes_all store cg sched toff eff fid,
    createNewVersion_unique_open store cg sched toff eff fid,
    fun cgx => openCount_createNewVersion store cg sched toff eff fid cgx,
    fun ops cgx => applyVersionOps_atMostOneOpen ops cgx⟩


theorem oracle_cases (env : Env) (appointments : List Appointment)
    (careGiverId : Nat) (date : Int) (s e loc : Nat) (ex : Option Nat) :
    isCareGiverAvailable env appointments careGiverId date s e loc ex =
      appointmentStageCheck env appointments careGiverId date s e loc ex ∨
    (isCareGiverAvailable env appointments careGiverId date s e loc ex).available = false := by
  simp only [isCareGiverAvailable]
  repeat' split
  all_goals first | exact Or.inl rfl | exact Or.inr rfl

theorem oracle_available_stage (env : Env) (appointments : List Appointment)
    (careGiverId : Nat) (date : Int) (s e loc : Nat) (ex : Option Nat)
    (h : (isCareGiverAvailable env appointments careGiverId date s e loc ex).available = true) :
    (appointmentStageCheck env appointments careGiverId date s e loc ex).available = true := by
  rcases oracle_cases env appointments careGiverId date s e loc ex with heq | hf
  · rw [heq] at h
    exact h
  · rw [h] at hf
    cases hf

theorem appointmentStage_no_overlap (env : Env) (appointments : List Appointment)
    (careGiverId : Nat) (date : Int) (s e loc : Nat)
    (h : (appointmentStageCheck env appointments careGiverId date s e loc none).available = true) :
    ∀ b ∈ appointments, involvesCareGiver careGiverId b = true → b.date = date →
      isActiveStatus b.status = true → overlapsApt b s e = false := by
  intro b hb hinv hdate hstat
  simp only [appointmentStageCheck] at h
  split at h
  · exact absurd h (by simp)
  · split at h
    · exact absurd h (by simp)
    · rename_i hfind
      have hbmem : b ∈ existingAppointmentsFor appointments careGiverId date none := by
        unfold existingAppointmentsFor
        rw [mem_sortLe]
        apply List.mem_filter.mpr
        refine ⟨hb, ?_⟩
        simp [hinv, hdate, hstat]
      have := List.find?_eq_none.mp hfind b hbmem
      simpa using this



theorem foldl_pickBest_mem (x : CareGiver × ℚ) (l : List (CareGiver × ℚ)) :
    (l.foldl (fun best y => if y.2 < best.2 then y else best) x) ∈ x :: l := by
  induction l generalizing x with
  | nil => simp
  | cons y rest ih =>
    simp only [List.foldl_cons]
    by_cases hy : y.2 < x.2
    · rw [if_pos hy]
      rcases List.mem_cons.mp (ih y) with h | h
      · exact List.mem_cons.mpr (Or.inr (List.mem_cons.mpr (Or.inl h)))
      · exact List.mem_cons.mpr (Or.inr (List.mem_cons.mpr (Or.inr h)))
    · rw [if_neg hy]
      rcases List.mem_cons.mp (ih x) with h | h
      · exact List.mem_cons.mpr (Or.inl h)
      · exact List.mem_cons.mpr (Or.inr (List.mem_cons.mpr (Or.inr h)))

theorem pickMinScore_mem (l : List (CareGiver × ℚ)) (cg : CareGiver)
    (h : pickMinScore l = some cg) : ∃ q, (cg, q) ∈ l := by
  cases l with
  | nil => cases h
  | cons x rest =>
    simp only [pickMinScore, Option.some.injEq] at h
    refine ⟨(rest.foldl (fun best y => if y.2 < best.2 then y else best) x).2, ?_⟩
    rw [← h]
    exact foldl_pickBest_mem x rest

theorem findBest_available (env : Env) (appointments : List Appointment)
    (careReceiver : CareReceiver) (visit : Visit) (date : Int)
    (ex : Option Nat) (cg : CareGiver)
    (h : (findBestCareGiver env appointments careReceiver visit date ex).careGiver = some cg) :
    (isCareGiverAvailable env appointments cg.id date visit.preferredTime
      (visit.preferredTime + visit.duration) careReceiver.coordinates none).available = true := by
  simp only [findBestCareGiver] at h
  split at h
  · cases h
  · split at h
    · cases h
    · rcases pickMinScore_mem _ _ h with ⟨q, hq⟩
      rcases List.mem_filterMap.mp hq with ⟨cg2, hcg2, hf⟩
      by_cases ha : (isCareGiverAvailable env appointments cg2.id date visit.preferredTime
          (visit.preferredTime + visit.duration) careReceiver.coordinates none).available = true
      · rw [if_pos ha] at hf
        have hcg : cg2 = cg := (Prod.mk.injEq ..).mp (Option.some.injEq .. |>.mp hf) |>.1
        rw [← hcg]
        exact ha
      · rw [if_neg ha] at hf
        cases hf



theorem processVisit_no_preexisting_conflict
    (env : Env) (careReceiver : CareReceiver) (d : Int) (apts0 : List Appointment)
    (st : ScheduleState) (visit : Visit)
    (hsub : ∀ b ∈ apts0, b ∈ st.appointments)
    (hinv : ∀ a ∈ st.scheduled, ∀ b ∈ apts0, isActiveStatus b.status = true →
      b.date = a.date →
      (involvesCareGiver a.careGiver b = true →
        overlapsApt b a.startTime a.endTime = false) ∧
      (∀ scg, a.secondaryCareGiver = some scg → involvesCareGiver scg b = true →
        overlapsApt b a.startTime a.endTime = false)) :
    (∀ b ∈ apts0, b ∈ (processVisit env careReceiver d st visit).appointments) ∧
    (∀ a ∈ (processVisit env careReceiver d st visit).scheduled, ∀ b ∈ apts0,
      isActiveStatus b.status = true → b.date = a.date →
      (involvesCareGiver a.careGiver b = true →
        overlapsApt b a.startTime a.endTime = false) ∧
      (∀ scg, a.secondaryCareGiver = some scg → involvesCareGiver scg b = true →
        overlapsApt b a.startTime a.endTime = false)) := by
  simp only [processVisit]
  split
  · exact ⟨hsub, hinv⟩
  · split
    · exact ⟨hsub, hinv⟩
    · rename_i primaryCG hp
      split
      · exact ⟨hsub, hinv⟩
      · rename_i okval heqsec
        split
        · constructor
          · intro b hb
            exact List.mem_append_left _ (hsub b hb)
          · intro a ha b hb hstat hdate
            rcases List.mem_append.mp ha with ha | ha
            · exact hinv a ha b hb hstat hdate
            · have ha' := List.mem_singleton.mp ha
              subst ha'
              constructor
              · intro hinvb
                have hav := findBest_available env st.appointments careReceiver visit d none
                  primaryCG hp
                have hstage := oracle_available_stage env st.appointments primaryCG.id d
                  visit.preferredTime (visit.preferredTime + visit.duration)
                  careReceiver.coordinates none hav
                exact appointmentStage_no_overlap env st.appointments primaryCG.id d
                  visit.preferredTime (visit.preferredTime + visit.duration)
                  careReceiver.coordinates hstage b (hsub b hb) hinvb hdate hstat
              · intro scg hscg hinvb
                by_cases hdh : visit.doubleHanded = true
                · rw [if_pos hdh] at heqsec
                  cases hsec : (findSecondaryCareGiver env st.appointments careReceiver
                      visit d primaryCG.id).careGiver with
                  | none => rw [hsec] at heqsec; cases heqsec
                  | some sCG =>
                    rw [hsec] at heqsec
                    have hok : okval = some sCG := by
                      injection heqsec with hh
                      exact hh.symm
                    subst hok
                    have hscg' : scg = sCG.id := by
                      simp at hscg
                      exact hscg.symm
                    subst hscg'
                    have hav := findBest_available env st.appointments careReceiver visit d
                      (some primaryCG.id) sCG hsec
                    have hstage := oracle_available_stage env st.appointments sCG.id d
                      visit.preferredTime (visit.preferredTime + visit.duration)
                      careReceiver.coordinates none hav
                    exact appointmentStage_no_overlap env st.appointments sCG.id d
                      visit.preferredTime (visit.preferredTime + visit.duration)
                      careReceiver.coordinates hstage b (hsub b hb) hinvb hdate hstat
                · rw [if_neg hdh] at heqsec
                  have hok : okval = none := by
                    injection heqsec with hh
                    exact hh.symm
                  subst hok
                  simp at hscg
        · exact ⟨hsub, hinv⟩



theorem foldl_preserve {α β : Type} (P : β → Prop) (f : β → α → β)
    (hf : ∀ st x, P st → P (f st x)) :
    ∀ (l : List α) (st : β), P st → P (l.foldl f st) := by
  intro l
  induction l with
  | nil => intro st h; exact h
  | cons x rest ih =>
    intro st h
    exact ih _ (hf st x h)

/-- C1 (amended): a generate run never books a care giver — primary or
secondary — into an appointment overlapping a scheduled or in-progress
appointment that care giver (in either role) already held when the run
started; in particular a second run never re-books the same care giver for an
already-covered visit. (It can, however, insert a duplicate
`(receiver, date, visit_number)` under a different care giver — see the
counterexample.) -/
theorem run_never_overlaps_preexisting (env : Env) (apts0 : List Appointment)
    (careReceiver : CareReceiver) (startDate endDate : Int) :
    ∀ a ∈ (scheduleForCareReceiver env apts0 careReceiver startDate endDate).scheduled,
      ∀ b ∈ apts0, isActiveStatus b.status = true → b.date = a.date →
      (involvesCareGiver a.careGiver b = true →
        overlapsApt b a.startTime a.endTime = false) ∧
      (∀ scg, a.secondaryCareGiver = some scg → involvesCareGiver scg b = true →
        overlapsApt b a.startTime a.endTime = false) := by
  have main : (∀ b ∈ apts0,
        b ∈ (scheduleForCareReceiver env apts0 careReceiver startDate endDate).appointments) ∧
      (∀ a ∈ (scheduleForCareReceiver env apts0 careReceiver startDate endDate).scheduled,
        ∀ b ∈ apts0, isActiveStatus b.status = true → b.date = a.date →
        (involvesCareGiver a.careGiver b = true →
          overlapsApt b a.startTime a.endTime = false) ∧
        (∀ scg, a.secondaryCareGiver = some scg → involvesCareGiver scg b = true →
          overlapsApt b a.startTime a.endTime = false)) := by
    unfold scheduleForCareReceiver
    apply foldl_preserve
      (fun st : ScheduleState => (∀ b ∈ apts0, b ∈ st.appointments) ∧
        (∀ a ∈ st.scheduled, ∀ b ∈ apts0, isActiveStatus b.status = true →
          b.date = a.date →
          (involvesCareGiver a.careGiver b = true →
            overlapsApt b a.startTime a.endTime = false) ∧
          (∀ scg, a.secondaryCareGiver = some scg → involvesCareGiver scg b = true →
            overlapsApt b a.startTime a.endTime = false)))
    · intro st dd hst
      refine foldl_preserve
        (fun st2 : ScheduleState => (∀ b ∈ apts0, b ∈ st2.appointments) ∧
          (∀ a ∈ st2.scheduled, ∀ b ∈ apts0, isActiveStatus b.status = true →
            b.date = a.date →
            (involvesCareGiver a.careGiver b = true →
              overlapsApt b a.startTime a.endTime = false) ∧
            (∀ scg, a.secondaryCareGiver = some scg → involvesCareGiver scg b = true →
              overlapsApt b a.startTime a.endTime = false)))
        (processVisit env careReceiver dd) ?_ careReceiver.dailyVisits st hst
      intro st2 v hst2
      exact processVisit_no_preexisting_conflict env careReceiver dd apts0 st2 v
        hst2.1 hst2.2
    · exact ⟨fun b hb => hb, fun a ha => absurd ha (List.not_mem_nil a)⟩
  exact main.2


/-- C7: when a double-handed visit occurrence finds a primary care giver but
no secondary, the engine commits nothing: the appointment collection and the
run's scheduled list are unchanged and the failure list gains one entry whose
reason names the missing secondary. -/
theorem processVisit_secondary_missing
    (env : Env) (careReceiver : CareReceiver) (visit : Visit) (date : Int)
    (st : ScheduleState) (primaryCG : CareGiver)
    (hocc : shouldVisitOccur visit date careReceiver.createdAt = true)
    (hdh : visit.doubleHanded = true)
    (hp : (findBestCareGiver env st.appointments careReceiver visit date none).careGiver =
      some primaryCG)
    (hs : (findSecondaryCareGiver env st.appointments careReceiver visit date
      primaryCG.id).careGiver = none) :
    (processVisit env careReceiver date st visit).appointments = st.appointments ∧
    (processVisit env careReceiver date st visit).scheduled = st.scheduled ∧
    (processVisit env careReceiver date st visit).failed = st.failed ++
      [⟨visit.visitNumber, date,
        .noSecondaryAvailable ((findSecondaryCareGiver env st.appointments careReceiver
          visit date primaryCG.id).reason.getD .allUnavailableOrConflicts)⟩] := by
  unfold processVisit
  rw [hocc]
  simp only [Bool.not_true, Bool.false_eq_true, if_false, hp, hdh, if_true, hs]
  exact ⟨trivial, trivial, trivial⟩

/-- Witness for C7 at the concrete double-handed scenario with a single
candidate care giver. -/
theorem processVisit_secondary_missing_witness :
    shouldVisitOccur exVisitDH 4 exReceiverDH.createdAt = true ∧
    ((processVisit exEnvDH exReceiverDH 4 ⟨[], [], [], 0⟩ exVisitDH).appointments = [] ∧
     (processVisit exEnvDH exReceiverDH 4 ⟨[], [], [], 0⟩ exVisitDH).scheduled = [] ∧
     (processVisit exEnvDH exReceiverDH 4 ⟨[], [], [], 0⟩ exVisitDH).failed = [] ++
       [⟨exVisitDH.visitNumber, 4,
         .noSecondaryAvailable ((findSecondaryCareGiver exEnvDH [] exReceiverDH
           exVisitDH 4 exCgA.id).reason.getD .allUnavailableOrConflicts)⟩]) :=
  ⟨by decide,
    processVisit_secondary_missing exEnvDH exReceiverDH exVisitDH 4 ⟨[], [], [], 0⟩ exCgA
      (by decide) (by decide) (by decide) (by decide)⟩


/-- C8: boundary cases of the feasibility oracle, for well-formed times
(`s < e`, positive-duration appointments): a visit starting at the exact slot
start or ending at the exact slot end passes the weekly-pattern containment;
a new visit whose start equals an existing appointment's end, or whose end
equals an existing appointment's start, does not trigger the overlap check
(half-open intervals); and a travel gap exactly equal to travel time plus the
buffer passes both travel checks. -/
theorem boundary_times_accepted (s e : Nat) (hse : s < e) :
    (∀ slots : List TimeSlot, ∀ slot ∈ slots, slot.startTime = s → e ≤ slot.endTime →
      isInWorkingHours slots s e = true) ∧
    (∀ slots : List TimeSlot, ∀ slot ∈ slots, slot.endTime = e → slot.startTime ≤ s →
      isInWorkingHours slots s e = true) ∧
    (∀ apt : Appointment, apt.startTime < apt.endTime → apt.endTime = s →
      overlapsApt apt s e = false) ∧
    (∀ apt : Appointment, apt.startTime < apt.endTime → apt.startTime = e →
      overlapsApt apt s e = false) ∧
    (∀ (env : Env) (existing : List Appointment) (lastApt : Appointment)
      (rcv : CareReceiver) (loc : Nat),
      (existing.filter fun apt => decide (apt.endTime ≤ s)).getLast? = some lastApt →
      env.careReceivers.find? (fun r => r.id == lastApt.careReceiver) = some rcv →
      s - lastApt.endTime = env.travel rcv.coordinates loc +
        env.settings.travelTimeBufferMinutes →
      travelCheckBefore env existing s loc = none) ∧
    (∀ (env : Env) (existing : List Appointment) (nextApt : Appointment)
      (rcv : CareReceiver) (loc : Nat),
      (existing.filter fun apt => decide (e ≤ apt.startTime)).head? = some nextApt →
      env.careReceivers.find? (fun r => r.id == nextApt.careReceiver) = some rcv →
      nextApt.startTime - e = env.travel loc rcv.coordinates +
        env.settings.travelTimeBufferMinutes →
      travelCheckAfter env existing e loc = none) := by
  refine ⟨?_, ?_, ?_, ?_, ?_, ?_⟩
  · intro slots slot hmem hstart hend
    unfold isInWorkingHours
    rw [List.any_eq_true]
    exact ⟨slot, hmem, by simp [hstart, hend]⟩
  · intro slots slot hmem hend hstart
    unfold isInWorkingHours
    rw [List.any_eq_true]
    exact ⟨slot, hmem, by simp [hstart, hend]⟩
  · intro apt hlt heq
    simp only [overlapsApt, Bool.or_eq_false_iff, Bool.and_eq_false_iff,
      decide_eq_false_iff_not, not_le, not_lt]
    omega
  · intro apt hlt heq
    simp only [overlapsApt, Bool.or_eq_false_iff, Bool.and_eq_false_iff,
      decide_eq_false_iff_not, not_le, not_lt]
    omega
  · intro env existing lastApt rcv loc hlast hfind hgap
    simp only [travelCheckBefore, hlast, hfind, hgap]
    simp
  · intro env existing nextApt rcv loc hnext hfind hgap
    simp only [travelCheckAfter, hnext, hfind, hgap]
    simp


/-- Witness for C8 at the concrete times 10:00 and 11:00. -/
theorem boundary_times_accepted_witness :
    600 < 660 ∧
    (∀ slots : List TimeSlot, ∀ slot ∈ slots, slot.startTime = 600 → 660 ≤ slot.endTime →
      isInWorkingHours slots 600 660 = true) :=
  ⟨by decide, (boundary_times_accepted 600 660 (by decide)).1⟩


/-- C10: manual creation returns MISSING_FIELDS exactly when one of the five
required fields is absent; with all five present it returns the receiver /
care giver NOT_FOUND codes exactly when the respective lookup fails; and
otherwise it always returns a created appointment with status `scheduled`
whose fields are fully determined by the request — no feasibility, overlap,
capacity or working-hours data enters the result. In particular (last
conjunct) it creates an appointment overlapping an existing scheduled
appointment of the same care giver on the same day. -/
theorem manual_create_behavior (env : Env) (appointments : List Appointment)
    (req : ManualAppointmentRequest) :
    (createManualAppointment env appointments req = .missingFields ↔
      (req.careReceiverId = none ∨ req.careGiverId = none ∨ req.date = none ∨
        req.startTime = none ∨ req.endTime = none)) ∧
    (∀ crId cgId d sT eT, req.careReceiverId = some crId → req.careGiverId = some cgId →
      req.date = some d → req.startTime = some sT → req.endTime = some eT →
      ((createManualAppointment env appointments req = .careReceiverNotFound ↔
        env.careReceivers.find? (fun r => r.id == crId) = none) ∧
       (createManualAppointment env appointments req = .careGiverNotFound ↔
        ((env.careReceivers.find? (fun r => r.id == crId)).isSome ∧
          env.careGivers.find? (fun g => g.id == cgId) = none)) ∧
       ((env.careReceivers.find? (fun r => r.id == crId)).isSome →
        (env.careGivers.find? (fun g => g.id == cgId)).isSome →
        createManualAppointment env appointments req = .created
          { id := freshAptId appointments, careReceiver := crId, careGiver := cgId,
            secondaryCareGiver := req.secondaryCareGiverId, date := d,
            startTime := sT, endTime := eT, duration := req.duration.getD 60,
            visitNumber := req.visitNumber.getD 1,
            doubleHanded := req.doubleHanded.getD false, status := .scheduled }))) ∧
    (∃ apt : Appointment,
      createManualAppointment exEnv [exBooked] exManualReq = .created apt ∧
      apt.status = .scheduled ∧ apt.careGiver = exBooked.careGiver ∧
      apt.date = exBooked.date ∧ exBooked.status = .scheduled ∧
      overlapsApt exBooked apt.startTime apt.endTime = true) := by
  refine ⟨?_, ?_, ?_⟩
  · cases hcr : req.careReceiverId <;> cases hcg : req.careGiverId <;>
      cases hd : req.date <;> cases hs : req.startTime <;> cases he : req.endTime <;>
      simp only [createManualAppointment, hcr, hcg, hd, hs, he]
    all_goals try simp
    all_goals (split <;> first | simp | (split <;> simp))
  · intro crId cgId d sT eT hcr hcg hd hs he
    cases hrf : env.careReceivers.find? (fun r => r.id == crId) with
    | none =>
      simp [createManualAppointment, hcr, hcg, hd, hs, he, hrf]
    | some rcv =>
      cases hgf : env.careGivers.find? (fun g => g.id == cgId) with
      | none => simp [createManualAppointment, hcr, hcg, hd, hs, he, hrf, hgf]
      | some giver => simp [createManualAppointment, hcr, hcg, hd, hs, he, hrf, hgf]
  · refine ⟨⟨1, 0, 1, none, 4, 630, 690, 60, 1, false, .scheduled⟩, ?_, ?_, ?_, ?_, ?_, ?_⟩
    all_goals decide


theorem distanceBonus_bounds (mx dist : ℚ) (hd : 0 ≤ dist) (hle : ¬(mx < dist)) :
    0 ≤ round ((mx - dist) / mx * 10) ∧ round ((mx - dist) / mx * 10) ≤ 10 := by
  push_neg at hle
  have hratio : 0 ≤ (mx - dist) / mx * 10 ∧ (mx - dist) / mx * 10 ≤ 10 := by
    by_cases hmx : mx = 0
    · have h0 : dist = 0 := le_antisymm (hmx ▸ hle) hd
      rw [hmx, h0]
      norm_num
    · have hmx0 : 0 < mx := lt_of_le_of_ne (le_trans hd hle) (Ne.symm hmx)
      constructor
      · have : (0:ℚ) ≤ (mx - dist) / mx := div_nonneg (by linarith) (le_of_lt hmx0)
        linarith
      · have h1 : (mx - dist) / mx ≤ 1 := by
          rw [div_le_one hmx0]
          linarith
        linarith
  constructor
  · rw [round_eq]
    have hmono := Int.floor_le_floor (α := ℚ)
      (show (0:ℚ) + 1/2 ≤ (mx - dist) / mx * 10 + 1/2 by linarith [hratio.1])
    have hz : (⌊(0:ℚ) + 1/2⌋ : ℤ) = 0 := by norm_num
    omega
  · rw [round_eq]
    have hmono := Int.floor_le_floor (α := ℚ)
      (show (mx - dist) / mx * 10 + 1/2 ≤ 10 + 1/2 by linarith [hratio.2])
    have h21 : (⌊(10:ℚ) + 1/2⌋ : ℤ) = 10 := by norm_num
    omega

theorem conflictScan_cases (buffer : Nat) (rid : Nat) (s e : Nat) :
    ∀ (l : List Appointment) (p : Int),
    conflictScan buffer rid s e l = some p → p = 40 ∨ p = 25 := by
  intro l
  induction l with
  | nil => intro p h; cases h
  | cons apt rest ih =>
    intro p h
    unfold conflictScan at h
    split at h
    · left
      injection h with hh
      exact hh.symm
    · split at h
      · right
        injection h with hh
        exact hh.symm
      · exact ih p h


theorem penalize_pre (st : Bool × Int) (fires : Bool) (p : Int)
    (hp : fires = true → 20 ≤ p)
    (h : (st.1 = true → st.2 = 100) ∧ st.2 ≤ 100 ∧ (st.1 = false → st.2 ≤ 80)) :
    ((penalize st fires p).1 = true → (penalize st fires p).2 = 100) ∧
    (penalize st fires p).2 ≤ 100 ∧
    ((penalize st fires p).1 = false → (penalize st fires p).2 ≤ 80) := by
  obtain ⟨h1, h2, h3⟩ := h
  cases fires with
  | false => simpa [penalize] using ⟨h1, h2, h3⟩
  | true =>
    have h20 := hp rfl
    simp only [penalize, if_true]
    exact ⟨by simp, by omega, fun _ => by omega⟩

theorem penalize_post (st : Bool × Int) (fires : Bool) (p : Int)
    (hp : fires = true → 20 ≤ p)
    (h : (st.1 = true → 100 ≤ st.2 ∧ st.2 ≤ 110) ∧ (st.1 = false → st.2 ≤ 90)) :
    ((penalize st fires p).1 = true → 100 ≤ (penalize st fires p).2 ∧
      (penalize st fires p).2 ≤ 110) ∧
    ((penalize st fires p).1 = false → (penalize st fires p).2 ≤ 90) := by
  obtain ⟨h1, h2⟩ := h
  cases fires with
  | false => simpa [penalize] using ⟨h1, h2⟩
  | true =>
    have h20 := hp rfl
    simp only [penalize, if_true]
    refine ⟨by simp, fun _ => ?_⟩
    cases hb : st.1 with
    | true => have := h1 hb; omega
    | false => have := h2 hb; omega

theorem analyzeStep3_pre (careReceiver : CareReceiver) (visit : Visit) (cg : CareGiver) :
    ((analyzeStep3 careReceiver visit cg).1 = true →
      (analyzeStep3 careReceiver visit cg).2 = 100) ∧
    (analyzeStep3 careReceiver visit cg).2 ≤ 100 ∧
    ((analyzeStep3 careReceiver visit cg).1 = false →
      (analyzeStep3 careReceiver visit cg).2 ≤ 80) := by
  unfold analyzeStep3 analyzeStep2 analyzeStep1
  refine penalize_pre _ _ _ (fun _ => by omega) ?_
  refine penalize_pre _ _ _
    (fun hf => by simp only [decide_eq_true_eq] at hf; omega) ?_
  refine penalize_pre _ _ _ (fun _ => by omega) ?_
  exact ⟨fun _ => rfl, by omega, fun hc => by cases hc⟩

theorem analyzeStep5_pre (env : Env) (careReceiver : CareReceiver) (visit : Visit)
    (date : Int) (cg : CareGiver) :
    ((analyzeStep5 env careReceiver visit date cg).1 = true →
      (analyzeStep5 env careReceiver visit date cg).2 = 100) ∧
    (analyzeStep5 env careReceiver visit date cg).2 ≤ 100 ∧
    ((analyzeStep5 env careReceiver visit date cg).1 = false →
      (analyzeStep5 env careReceiver visit date cg).2 ≤ 80) := by
  have h3 := analyzeStep3_pre careReceiver visit cg
  unfold analyzeStep5
  cases hav : analyzerAvailability env cg date with
  | none => exact penalize_pre _ _ 100 (fun _ => by omega) h3
  | some pair =>
    obtain ⟨schedule, timeOffList⟩ := pair
    refine penalize_pre _ _ 100 (fun _ => by omega) ?_
    cases hfd : schedule.find? (fun s => s.dayOfWeek == dayOfWeekOf date) with
    | none => exact penalize_pre _ _ 40 (fun _ => by omega) h3
    | some daySchedule =>
      by_cases hemp : daySchedule.slots.isEmpty = true
      · simp only [hemp, if_true]
        exact penalize_pre _ _ 40 (fun _ => by omega) h3
      · simp only [hemp, if_false, Bool.false_eq_true]
        exact penalize_pre _ _ 30 (fun _ => by omega) h3





theorem analyzeStep8_post (env : Env) (appointments : List Appointment)
    (careReceiver : CareReceiver) (visit : Visit) (date : Int) (cg : CareGiver)
    (hdist : ∀ x y, (0:ℚ) ≤ env.dist x y) :
    ((analyzeStep8 env appointments careReceiver visit date cg).1 = true →
      100 ≤ (analyzeStep8 env appointments careReceiver visit date cg).2 ∧
      (analyzeStep8 env appointments careReceiver visit date cg).2 ≤ 110) ∧
    ((analyzeStep8 env appointments careReceiver visit date cg).1 = false →
      (analyzeStep8 env appointments careReceiver visit date cg).2 ≤ 90) := by
  have h5 := analyzeStep5_pre env careReceiver visit date cg
  have h6 : ((analyzeStep6 env careReceiver visit date cg).1 = true →
      100 ≤ (analyzeStep6 env careReceiver visit date cg).2 ∧
      (analyzeStep6 env careReceiver visit date cg).2 ≤ 110) ∧
      ((analyzeStep6 env careReceiver visit date cg).1 = false →
      (analyzeStep6 env careReceiver visit date cg).2 ≤ 90) := by
    unfold analyzeStep6
    by_cases hfar : env.settings.maxDistanceKm <
        env.dist cg.coordinates careReceiver.coordinates
    · simp only [hfar, if_true]
      obtain ⟨g1, g2, g3⟩ := h5
      refine ⟨by simp [penalize], fun _ => ?_⟩
      simp only [penalize, if_true]
      omega
    · simp only [hfar, if_false]
      obtain ⟨hz0, hz10⟩ := distanceBonus_bounds env.settings.maxDistanceKm
        (env.dist cg.coordinates careReceiver.coordinates) (hdist _ _) hfar
      obtain ⟨g1, g2, g3⟩ := h5
      constructor
      · intro ht
        have := g1 ht
        constructor <;> omega
      · intro hf
        have := g3 hf
        omega
  have h7 : ((analyzeStep7 env appointments careReceiver visit date cg).1 = true →
      100 ≤ (analyzeStep7 env appointments careReceiver visit date cg).2 ∧
      (analyzeStep7 env appointments careReceiver visit date cg).2 ≤ 110) ∧
      ((analyzeStep7 env appointments careReceiver visit date cg).1 = false →
      (analyzeStep7 env appointments careReceiver visit date cg).2 ≤ 90) := by
    unfold analyzeStep7
    exact penalize_post _ _ 30 (fun _ => by omega) h6
  unfold analyzeStep8
  cases hcs : conflictScan env.settings.travelTimeBufferMinutes careReceiver.id
      visit.preferredTime (visit.preferredTime + visit.duration)
      (sortLe (fun a b => decide (a.startTime ≤ b.startTime))
        (analyzerDayAppointments appointments cg date)) with
  | none => exact h7
  | some p =>
    have hp : 25 ≤ p := by
      rcases conflictScan_cases env.settings.travelTimeBufferMinutes careReceiver.id
        visit.preferredTime (visit.preferredTime + visit.duration) _ p hcs with rfl | rfl
      · omega
      · omega
    exact penalize_post _ _ p (fun _ => by omega) h7

theorem analyzeCareGiver_canAssign_iff (env : Env) (appointments : List Appointment)
    (careReceiver : CareReceiver) (visit : Visit) (date : Int) (cg : CareGiver)
    (hdist : ∀ x y, (0:ℚ) ≤ env.dist x y) :
    ((analyzeCareGiver env appointments careReceiver visit date cg).canAssign = true ↔
      (analyzeCareGiver env appointments careReceiver visit date cg).matchScore = 100) := by
  obtain ⟨h1, h2⟩ := analyzeStep8_post env appointments careReceiver visit date cg hdist
  unfold analyzeCareGiver
  show (analyzeStep8 env appointments careReceiver visit date cg).1 = true ↔
    max 0 (min 100 (analyzeStep8 env appointments careReceiver visit date cg).2) = 100
  cases hb : (analyzeStep8 env appointments careReceiver visit date cg).1 with
  | true =>
    have hr := h1 hb
    constructor
    · intro _
      omega
    · intro _
      rfl
  | false =>
    have hr := h2 hb
    constructor
    · intro hcontr
      cases hcontr
    · intro hs
      exfalso
      omega



theorem pairwise_insertLe {α : Type} (le : α → α → Bool)
    (htot : ∀ a b, le a b = true ∨ le b a = true)
    (htrans : ∀ a b c, le a b = true → le b c = true → le a c = true)
    (a : α) (l : List α) (h : l.Pairwise (fun x y => le x y = true)) :
    (insertLe le a l).Pairwise (fun x y => le x y = true) := by
  induction l with
  | nil => simp [insertLe]
  | cons b rest ih =>
    rw [insertLe]
    rcases List.pairwise_cons.mp h with ⟨hb, hrest⟩
    by_cases hba : le b a = true
    · rw [if_pos hba]
      refine List.pairwise_cons.mpr ⟨?_, ih hrest⟩
      intro x hx
      rcases (mem_insertLe le a x rest).mp hx with rfl | hx
      · exact hba
      · exact hb x hx
    · rw [if_neg hba]
      have hab : le a b = true := by
        rcases htot a b with hh | hh
        · exact hh
        · exact absurd hh hba
      refine List.pairwise_cons.mpr ⟨?_, h⟩
      intro x hx
      rcases List.mem_cons.mp hx with rfl | hx
      · exact hab
      · exact htrans a b x hab (hb x hx)

theorem pairwise_sortLe {α : Type} (le : α → α → Bool)
    (htot : ∀ a b, le a b = true ∨ le b a = true)
    (htrans : ∀ a b c, le a b = true → le b c = true → le a c = true)
    (l : List α) :
    (sortLe le l).Pairwise (fun x y => le x y = true) := by
  induction l with
  | nil => simp [sortLe]
  | cons b rest ih =>
    simp only [sortLe, List.foldr_cons] at ih ⊢
    exact pairwise_insertLe le htot htrans b _ ih

/-- C5: every row of the analyzer's report carries a match score clamped to
[0, 100], and the returned list (sorted by descending score) has assignable
care givers first and descending scores within each group: whenever `a`
precedes `b`, `b.canAssign` implies `a.canAssign` and `b`'s score is at most
`a`'s. (Assignability is equivalent to a clamped score of exactly 100, since
every penalty both blocks and costs at least 20 while the distance bonus is
at most 10.) -/
theorem analyzer_scores_clamped_and_sorted (env : Env)
    (appointments : List Appointment) (careReceiver : CareReceiver)
    (visit : Visit) (date : Int)
    (hdist : ∀ x y, (0:ℚ) ≤ env.dist x y) :
    (∀ r ∈ analyzeUnscheduled env appointments careReceiver visit date,
      0 ≤ r.matchScore ∧ r.matchScore ≤ 100) ∧
    (analyzeUnscheduled env appointments careReceiver visit date).Pairwise
      (fun a b => (b.canAssign = true → a.canAssign = true) ∧
        b.matchScore ≤ a.matchScore) := by
  have hmem : ∀ r ∈ analyzeUnscheduled env appointments careReceiver visit date,
      ∃ cg, r = analyzeCareGiver env appointments careReceiver visit date cg := by
    intro r hr
    unfold analyzeUnscheduled at hr
    rw [mem_sortLe] at hr
    rcases List.mem_map.mp hr with ⟨cg, _, rfl⟩
    exact ⟨cg, rfl⟩
  have hclamp : ∀ r ∈ analyzeUnscheduled env appointments careReceiver visit date,
      0 ≤ r.matchScore ∧ r.matchScore ≤ 100 := by
    intro r hr
    rcases hmem r hr with ⟨cg, rfl⟩
    unfold analyzeCareGiver
    constructor
    · exact le_max_left 0 _
    · simp only []
      omega
  refine ⟨hclamp, ?_⟩
  have hpw := pairwise_sortLe
    (fun a b : CareGiverAnalysis => decide (b.matchScore ≤ a.matchScore))
    (fun a b => by
      by_cases hh : b.matchScore ≤ a.matchScore
      · exact Or.inl (by simpa using hh)
      · exact Or.inr (by simp; omega))
    (fun a b c h1 h2 => by
      simp only [decide_eq_true_eq] at h1 h2 ⊢
      omega)
    ((env.careGivers.filter (fun cg => cg.isActive)).map
      (analyzeCareGiver env appointments careReceiver visit date))
  unfold analyzeUnscheduled
  refine List.Pairwise.imp_of_mem ?_ hpw
  intro a b ha hb hle
  simp only [decide_eq_true_eq] at hle
  refine ⟨?_, hle⟩
  intro hbcan
  have ha' : a ∈ analyzeUnscheduled env appointments careReceiver visit date := by
    unfold analyzeUnscheduled
    exact ha
  have hb' : b ∈ analyzeUnscheduled env appointments careReceiver visit date := by
    unfold analyzeUnscheduled
    exact hb
  rcases hmem a ha' with ⟨cga, rfl⟩
  rcases hmem b hb' with ⟨cgb, rfl⟩
  have hbiff := analyzeCareGiver_canAssign_iff env appointments careReceiver visit date cgb hdist
  have haiff := analyzeCareGiver_canAssign_iff env appointments careReceiver visit date cga hdist
  have hb100 := hbiff.mp hbcan
  have ha100 : (analyzeCareGiver env appointments careReceiver visit date cga).matchScore = 100 := by
    have := (hclamp _ ha').2
    omega
  exact haiff.mpr ha100


/-- Witness for C5 at the concrete two-care-giver environment. -/
theorem analyzer_scores_clamped_and_sorted_witness :
    (∀ x y, (0:ℚ) ≤ exEnv.dist x y) ∧
    (∀ r ∈ analyzeUnscheduled exEnv [] exReceiver exVisit 4,
      0 ≤ r.matchScore ∧ r.matchScore ≤ 100) :=
  have hd : ∀ x y, (0:ℚ) ≤ exEnv.dist x y := by
    intro x y
    show (0:ℚ) ≤ exDist x y
    unfold exDist
    split_ifs <;> norm_num
  ⟨hd, (analyzer_scores_clamped_and_sorted exEnv [] exReceiver exVisit 4 hd).1⟩

/-- Witness for the amended C1 theorem at the concrete two-run scenario: the
second run's appointment (care giver 2) does not overlap-share a care giver
with the first run's appointment (care giver 1). -/
theorem run_never_overlaps_preexisting_witness :
    exApt2 ∈ (scheduleForCareReceiver exEnv exRun1.appointments exReceiver 4 4).scheduled ∧
    exApt1 ∈ exRun1.appointments ∧ isActiveStatus exApt1.status = true ∧
    exApt1.date = exApt2.date ∧
    ((involvesCareGiver exApt2.careGiver exApt1 = true →
      overlapsApt exApt1 exApt2.startTime exApt2.endTime = false) ∧
     (∀ scg, exApt2.secondaryCareGiver = some scg →
      involvesCareGiver scg exApt1 = true →
      overlapsApt exApt1 exApt2.startTime exApt2.endTime = false)) :=
  ⟨by decide, by decide, by decide, by decide,
    run_never_overlaps_preexisting exEnv exRun1.appointments exReceiver 4 4 exApt2
      (by decide) exApt1 (by decide) (by decide) (by decide)⟩

end CareApp

